import Mathlib

/-!
# AirCanvas — verification of the perception-to-canvas core

A shallow embedding of the AirCanvas repository's core engines, with the
spec's testable properties settled against it:

* `Undo` — the snapshot-stack fragment of `CanvasEngine`
  (`src/drawing/canvas_engine.py`): `push_undo`, `undo`, `redo`, and the
  edit discipline, over an opaque raster type.
* `Ink` — the pixel-extent fragment of the same class: the dirty
  bounding box (`_mark_bbox`, `_recompute_bbox`) and the box `blend`
  composites through, with each drawing call's ink footprint modelled as
  a set of integer pixels.
* `HandGesture` — `gesture_engine.py`: the per-frame classifier
  (`_is_pinch`, `_count`, `_classify`), the debouncer (`_debounce`) and
  the 1-D Kalman smoother (`KalmanPoint`).
* `Shape` — `shape_engine.py`: the shape session state machine.
* `StateM` — `state_manager.py`: the drawing state machine's
  transition guard.

Machine floats are embedded as exact rationals; where a Python
float expression is replaced by an exact equivalent (a square root
compared through squares) the definition's doc comment says so.
-/

namespace AirCanvas

/-! ## Constants (src/utils/config.py) -/

/-- `MAX_UNDO_STEPS = 40`. -/
def MAX_UNDO_STEPS : ℕ := 40

/-- `PINCH_THRESHOLD = 0.07`. -/
def PINCH_THRESHOLD : ℚ := 7/100

/-- `DEBOUNCE_DELAY = 0.10`. -/
def DEBOUNCE_DELAY : ℚ := 1/10

/-- `SHAPE_MIN_SIZE_PX = 10`. -/
def SHAPE_MIN_SIZE_PX : ℤ := 10

/-- `SHAPE_MIN_MOVE_PX = 3`. -/
def SHAPE_MIN_MOVE_PX : ℤ := 3

/-- `SHAPE_STILL_RADIUS_PX = 20`. -/
def SHAPE_STILL_RADIUS_PX : ℤ := 20

/-- `SHAPE_HOLD_SECONDS = 0.32`. -/
def SHAPE_HOLD_SECONDS : ℚ := 8/25

/-- `SHAPE_EMA_ALPHA = 0.35`. -/
def SHAPE_EMA_ALPHA : ℚ := 7/20

/-- `KALMAN_PROCESS_NOISE = 2e-3`. -/
def KALMAN_PROCESS_NOISE : ℚ := 1/500

/-- `KALMAN_MEASURE_NOISE = 6e-3`. -/
def KALMAN_MEASURE_NOISE : ℚ := 3/500

/-- `DISPLAY_WIDTH = 1280`. -/
def DISPLAY_WIDTH : ℤ := 1280

/-- `DISPLAY_HEIGHT = 720`. -/
def DISPLAY_HEIGHT : ℤ := 720

namespace Undo

/-- The snapshot-stack fragment of `CanvasEngine`
(`src/drawing/canvas_engine.py`). The raster content is an opaque type
`α`: the claims settled against this model concern only which raster the
engine holds and the stack discipline, never the pixels an individual
cv2 call writes, so a drawing call is an arbitrary raster transform
`α → α` (the box-cache fields live in the `Ink` model instead).
Python's `list.append`/`list.pop()` act on the tail; the model stores
each stack reversed, head = top, so Python's `pop(0)` eviction of the
oldest snapshot is `List.dropLast`. -/
structure CanvasEngine (α : Type) where
  canvas : α
  undoStack : List α
  redoStack : List α
deriving DecidableEq

variable {α : Type}

/-- `CanvasEngine.push_undo`: evict the oldest snapshot when the stack
is at `MAX_UNDO_STEPS`, push a copy of the canvas, clear the redo stack. -/
def pushUndo (e : CanvasEngine α) : CanvasEngine α :=
  let u := if MAX_UNDO_STEPS ≤ e.undoStack.length then e.undoStack.dropLast else e.undoStack
  { canvas := e.canvas, undoStack := e.canvas :: u, redoStack := [] }

/-- `CanvasEngine.undo`: `False` when the undo stack is empty; otherwise
push the canvas onto the redo stack and pop the undo stack into the
canvas. (The `_bbox_stale = True` write belongs to the `Ink` model.) -/
def undo (e : CanvasEngine α) : Bool × CanvasEngine α :=
  match e.undoStack with
  | [] => (false, e)
  | top :: rest =>
    (true, { canvas := top, undoStack := rest, redoStack := e.canvas :: e.redoStack })

/-- `CanvasEngine.redo`: the mirror image of `undo`. -/
def redo (e : CanvasEngine α) : Bool × CanvasEngine α :=
  match e.redoStack with
  | [] => (false, e)
  | top :: rest =>
    (true, { canvas := top, undoStack := e.canvas :: e.undoStack, redoStack := rest })

/-- The state after one `undo()` call (its Bool result dropped). -/
def undoStep (e : CanvasEngine α) : CanvasEngine α := (undo e).2

/-- The state after one `redo()` call (its Bool result dropped). -/
def redoStep (e : CanvasEngine α) : CanvasEngine α := (redo e).2

/-- One undoable edit: a drawing call (`draw_line`, `draw_dot`,
`draw_shape`, `blit_image` — any raster transform, since each mutates
only the canvas array) or `clear()`, which itself calls `push_undo` and
then resets the raster to the blank canvas `_blank()`. -/
inductive Edit (α : Type) where
  | draw (f : α → α)
  | clear

/-- Apply one edit to the engine. -/
def applyEdit (blank : α) (e : CanvasEngine α) : Edit α → CanvasEngine α
  | .draw f => { e with canvas := f e.canvas }
  | .clear => { pushUndo e with canvas := blank }

/-- One step of the spec's edit discipline: `push_undo` immediately
followed by the edit. -/
def editStep (blank : α) (e : CanvasEngine α) (ed : Edit α) : CanvasEngine α :=
  applyEdit blank (pushUndo e) ed

/-- A sequence of edits, each immediately preceded by one `push_undo`. -/
def runEdits (blank : α) (e : CanvasEngine α) (eds : List (Edit α)) : CanvasEngine α :=
  eds.foldl (editStep blank) e

theorem undoStep_of_empty {e : CanvasEngine α} (h : e.undoStack = []) :
    undoStep e = e := by
  simp [undoStep, undo, h]

theorem redoStep_of_empty {e : CanvasEngine α} (h : e.redoStack = []) :
    redoStep e = e := by
  simp [redoStep, redo, h]

/-- `redo` undoes one successful `undo` exactly: the canvas and both
stacks return bit-for-bit. -/
theorem redoStep_undoStep {e : CanvasEngine α} (h : e.undoStack ≠ []) :
    redoStep (undoStep e) = e := by
  obtain ⟨c, u, r⟩ := e
  rcases u with _ | ⟨top, rest⟩
  · simp at h
  · rfl

/-- Undoing then redoing `m` times is the identity when `m` does not
exceed the undo stack's depth. -/
theorem redoN_undoN_of_le :
    ∀ (m : ℕ) (e : CanvasEngine α), m ≤ e.undoStack.length →
      redoStep^[m] (undoStep^[m] e) = e
  | 0, _, _ => rfl
  | m + 1, e, h => by
    rcases hl : e.undoStack with _ | ⟨top, rest⟩
    · rw [hl] at h
      simp at h
    · have hne : e.undoStack ≠ [] := by simp [hl]
      have hlen : m ≤ (undoStep e).undoStack.length := by
        rw [hl] at h
        simp only [List.length_cons] at h
        simp only [undoStep, undo, hl]
        omega
      calc redoStep^[m + 1] (undoStep^[m + 1] e)
          = redoStep (redoStep^[m] (undoStep^[m] (undoStep e))) := by
            rw [Function.iterate_succ_apply undoStep m e,
                Function.iterate_succ_apply' redoStep m]
        _ = redoStep (undoStep e) := by rw [redoN_undoN_of_le m (undoStep e) hlen]
        _ = e := redoStep_undoStep hne

theorem undoN_length : ∀ (m : ℕ) (e : CanvasEngine α),
    (undoStep^[m] e).undoStack.length = e.undoStack.length - m
  | 0, _ => rfl
  | m + 1, e => by
    rw [Function.iterate_succ_apply undoStep m e]
    rcases hl : e.undoStack with _ | ⟨top, rest⟩
    · rw [undoStep_of_empty hl, undoN_length m e, hl]
      simp
    · rw [undoN_length m (undoStep e)]
      simp [undoStep, undo, hl, Nat.succ_sub_succ]

/-- The undo/redo inverse law for the raw stack operations: starting
from a clean redo stack, `m` `undo()` calls followed by `m` `redo()`
calls restore the whole engine, for every `m` — failing calls on an
exhausted stack are no-ops that the opposite phase mirrors. -/
theorem redoN_undoN (m : ℕ) (e : CanvasEngine α) (hr : e.redoStack = []) :
    redoStep^[m] (undoStep^[m] e) = e := by
  by_cases h : m ≤ e.undoStack.length
  · exact redoN_undoN_of_le m e h
  · set j := e.undoStack.length with hj
    have hm : m = (m - j) + j := by omega
    have hempty : (undoStep^[j] e).undoStack = [] := by
      have := undoN_length (α := α) j e
      rw [← hj] at this
      simp only [Nat.sub_self] at this
      exact List.eq_nil_of_length_eq_zero this
    have hufix : undoStep^[m] e = undoStep^[j] e := by
      rw [hm, Function.iterate_add_apply]
      exact Function.iterate_fixed (undoStep_of_empty hempty) (m - j)
    rw [hufix, hm, Function.iterate_add_apply,
        redoN_undoN_of_le j e (le_of_eq hj)]
    exact Function.iterate_fixed (redoStep_of_empty hr) (m - j)

theorem redoStack_editStep (blank : α) (e : CanvasEngine α) (ed : Edit α) :
    (editStep blank e ed).redoStack = [] := by
  cases ed <;> rfl

theorem redoStack_runEdits (blank : α) (e : CanvasEngine α) (eds : List (Edit α))
    (h : eds ≠ []) : (runEdits blank e eds).redoStack = [] := by
  rcases List.eq_nil_or_concat eds with h0 | ⟨ys, ed, rfl⟩
  · exact absurd h0 h
  · rw [runEdits, List.concat_eq_append, List.foldl_append]
    exact redoStack_editStep blank _ ed

/-- C1 — Undo/redo inverse law: for every canvas engine and every
sequence of `n` edits (`draw_line`, `draw_dot`, `draw_shape`,
`blit_image`, or `clear`), each immediately preceded by one `push_undo`
call, calling `undo()` `n` times and then `redo()` `n` times leaves the
raster bit-for-bit equal to the state immediately after the `n`-th
edit. -/
theorem c1_undo_redo_inverse (α : Type) (blank : α) (e₀ : CanvasEngine α)
    (eds : List (Edit α)) :
    (redoStep^[eds.length] (undoStep^[eds.length] (runEdits blank e₀ eds))).canvas
      = (runEdits blank e₀ eds).canvas := by
  rcases List.eq_nil_or_concat eds with rfl | ⟨ys, ed, rfl⟩
  · rfl
  · rw [redoN_undoN _ _ (redoStack_runEdits blank e₀ _ (by simp))]

/-- The concrete 41-snapshot scenario: starting from raster `1`, do 41
times (`push_undo`; replace the raster with the next number), so the
`i`-th `push_undo` snapshots raster `i`. -/
def pushes41 : CanvasEngine ℕ :=
  (List.range 41).foldl (fun e i => { pushUndo e with canvas := i + 2 }) ⟨1, [], []⟩

set_option maxRecDepth 8000 in
/-- C6 — Bounded undo stack with oldest-first eviction: pushing 41
snapshots onto the stack bounded at 40 keeps 40 of them with the oldest
(snapshot `1`) evicted (the bottom of the stack is snapshot `2`);
`undo()` 40 times then restores snapshot `2`, and a 41st `undo()`
returns `false` and leaves the canvas unchanged. -/
theorem c6_bounded_undo_eviction :
    pushes41.undoStack.length = 40 ∧
    pushes41.undoStack.getLast? = some 2 ∧
    (undoStep^[40] pushes41).canvas = 2 ∧
    (undo (undoStep^[40] pushes41)).1 = false ∧
    (undo (undoStep^[40] pushes41)).2.canvas = 2 := by
  decide

end Undo

namespace HandGesture

/-! Landmark indices (`src/utils/config.py`). -/

/-- `WRIST = 0`. -/
def WRIST : Fin 21 := 0

/-- `THUMB_TIP = 4`. -/
def THUMB_TIP : Fin 21 := 4

/-- `THUMB_IP = 3`. -/
def THUMB_IP : Fin 21 := 3

/-- `INDEX_TIP = 8`. -/
def INDEX_TIP : Fin 21 := 8

/-- `INDEX_PIP = 6`. -/
def INDEX_PIP : Fin 21 := 6

/-- `MIDDLE_TIP = 12`. -/
def MIDDLE_TIP : Fin 21 := 12

/-- `MIDDLE_PIP = 10`. -/
def MIDDLE_PIP : Fin 21 := 10

/-- `RING_TIP = 16`. -/
def RING_TIP : Fin 21 := 16

/-- `RING_PIP = 14`. -/
def RING_PIP : Fin 21 := 14

/-- `PINKY_TIP = 20`. -/
def PINKY_TIP : Fin 21 := 20

/-- `PINKY_PIP = 18`. -/
def PINKY_PIP : Fin 21 := 18

/-- The `Gesture` enum of `gesture_engine.py`. -/
inductive Gesture where
  | NONE
  | DRAWING
  | FIST
  | TWO
  | THREE
  | FOUR
  | OPEN_PALM
  | PINCH
deriving DecidableEq, Repr

/-- One detected hand (`HandResult` of `multi_hand_detector.py`) as the
classifier reads it: 21 normalized landmarks (x, y — the z coordinate is
not consulted by `_classify`) and 21 pixel-space landmarks. Total
functions on `Fin 21` model the lists that always hold the 21 indexed
points. -/
structure HandResult where
  norm : Fin 21 → ℚ × ℚ
  pixel : Fin 21 → ℤ × ℤ

/-- `GestureEngine._is_pinch`. The source compares
`sqrt(dx² + dy²) < PINCH_THRESHOLD`; both sides are nonnegative, so the
model compares the squares — exactly equivalent. -/
def isPinch (h : HandResult) : Bool :=
  let dx := (h.norm THUMB_TIP).1 - (h.norm INDEX_TIP).1
  let dy := (h.norm THUMB_TIP).2 - (h.norm INDEX_TIP).2
  decide (dx * dx + dy * dy < PINCH_THRESHOLD * PINCH_THRESHOLD)

/-- `GestureEngine._count`: the thumb is extended when its tip x lies
outside its IP-joint x away from the wrist (orientation-dependent
comparison of normalized x), and each other finger is extended when its
fingertip pixel y is numerically less than its PIP-joint pixel y. -/
def count (h : HandResult) : ℕ :=
  (if (h.norm WRIST).1 < (h.norm THUMB_IP).1
     then (if (h.norm THUMB_IP).1 < (h.norm THUMB_TIP).1 then 1 else 0)
     else (if (h.norm THUMB_TIP).1 < (h.norm THUMB_IP).1 then 1 else 0))
  + (if (h.pixel INDEX_TIP).2 < (h.pixel INDEX_PIP).2 then 1 else 0)
  + (if (h.pixel MIDDLE_TIP).2 < (h.pixel MIDDLE_PIP).2 then 1 else 0)
  + (if (h.pixel RING_TIP).2 < (h.pixel RING_PIP).2 then 1 else 0)
  + (if (h.pixel PINKY_TIP).2 < (h.pixel PINKY_PIP).2 then 1 else 0)

/-- The count-to-gesture dictionary of `_classify`, with its
`.get(n, Gesture.NONE)` fallback. -/
def countToGesture : ℕ → Gesture
  | 0 => .FIST
  | 1 => .DRAWING
  | 2 => .TWO
  | 3 => .THREE
  | 4 => .FOUR
  | 5 => .OPEN_PALM
  | _ => .NONE

/-- `GestureEngine._classify`: pinch first, then the finger count. -/
def classify (h : HandResult) : Gesture :=
  if isPinch h then .PINCH else countToGesture (count h)

/-- C3 — Pinch priority: for every hand landmark set, whenever the
Euclidean distance between the thumb-tip and index-tip normalized (x, y)
coordinates is below `PINCH_THRESHOLD` (stated on the squares, which is
equivalent), the per-frame classifier returns `PINCH`, regardless of
what the extended-finger count would report. -/
theorem c3_pinch_priority (h : HandResult)
    (hd : ((h.norm THUMB_TIP).1 - (h.norm INDEX_TIP).1)
            * ((h.norm THUMB_TIP).1 - (h.norm INDEX_TIP).1)
        + ((h.norm THUMB_TIP).2 - (h.norm INDEX_TIP).2)
            * ((h.norm THUMB_TIP).2 - (h.norm INDEX_TIP).2)
        < PINCH_THRESHOLD * PINCH_THRESHOLD) :
    classify h = Gesture.PINCH := by
  simp only [classify, isPinch]
  rw [if_pos]
  exact decide_eq_true hd

/-- A hand with all landmarks at the origin: thumb tip and index tip
coincide, so it pinches. -/
def pinchHand : HandResult := ⟨fun _ => (0, 0), fun _ => (0, 0)⟩

theorem c3_pinch_priority_witness : classify pinchHand = Gesture.PINCH :=
  c3_pinch_priority pinchHand (by norm_num [pinchHand, PINCH_THRESHOLD])

/-- C10 — Per-hand classification is never `NONE`: the extended-finger
count is at most 5 (it is a sum of five 0/1 tests), so `_classify`
always lands in the count dictionary or the pinch branch and the
`Gesture.NONE` fallback is unreachable. -/
theorem c10_classify_never_none (h : HandResult) :
    count h ≤ 5 ∧ classify h ≠ Gesture.NONE := by
  have hc : count h ≤ 5 := by
    unfold count
    split_ifs <;> norm_num
  refine ⟨hc, ?_⟩
  unfold classify
  by_cases hp : isPinch h
  · simp [hp]
  · simp only [hp, if_false, Bool.false_eq_true]
    set n := count h with hn
    interval_cases n <;> simp [countToGesture]

/-- `KalmanPoint` (`gesture_engine.py`): 1-D Kalman filter state; the
fields mirror `_x, _p, _q, _r, _init`. -/
structure KalmanPoint where
  x : ℚ
  p : ℚ
  q : ℚ
  r : ℚ
  seeded : Bool
deriving DecidableEq

/-- `KalmanPoint.__init__`: `x = 0, p = 1`, given noise constants, not
yet seeded. -/
def KalmanPoint.mk0 (q r : ℚ) : KalmanPoint := ⟨0, 1, q, r, false⟩

/-- `KalmanPoint.update`: seed on the first call, otherwise one
predict/correct step. Returns (the returned estimate, the new state). -/
def KalmanPoint.update (k : KalmanPoint) (z : ℚ) : ℚ × KalmanPoint :=
  if k.seeded = false then (z, { k with x := z, seeded := true })
  else
    let p1 := k.p + k.q
    let kg := p1 / (p1 + k.r)
    let x1 := k.x + kg * (z - k.x)
    (x1, { k with x := x1, p := (1 - kg) * p1 })

/-- `KalmanPoint.reset`: sets only `_init = False`; `_x` and `_p` are
left as they are. -/
def KalmanPoint.reset (k : KalmanPoint) : KalmanPoint := { k with seeded := false }

/-- A filter constructed with the config noise constants. -/
def kalman0 : KalmanPoint := KalmanPoint.mk0 KALMAN_PROCESS_NOISE KALMAN_MEASURE_NOISE

/-- C8 counterexample — feed a fresh filter the measurements `0, 0`,
call `reset()`, then feed `0, 1`: the second post-reset output differs
from the output of a freshly constructed filter fed the same
measurements `0, 1`, because `reset` leaves the shrunken covariance `_p`
in place. So the filter's post-reset outputs do not all equal those of a
fresh filter. -/
theorem c8_counterexample :
    (((((((kalman0.update 0).2.update 0).2.reset.update 0).2).update 1).1)
      ≠ ((kalman0.update 0).2.update 1).1) := by
  norm_num [KalmanPoint.update, KalmanPoint.reset, kalman0, KalmanPoint.mk0,
            KALMAN_PROCESS_NOISE, KALMAN_MEASURE_NOISE]

/-- C8 amended — `reset()` clears only the seeded flag, so for every
filter state and measurement `z`, the next `update(z)` returns `z`
exactly (no smoothing lag) and re-seeds the estimate at `z`; the
covariance `_p` and the noise constants carry over from before the reset
rather than being restored to the freshly-constructed values, so later
outputs are those of a filter whose covariance starts at the carried-over
value (and in general differ from a freshly constructed filter's). -/
theorem c8_reset_reseeds (k : KalmanPoint) (z : ℚ) :
    (k.reset.update z).1 = z ∧
    (k.reset.update z).2 = ⟨z, k.p, k.q, k.r, true⟩ := by
  constructor <;> simp [KalmanPoint.update, KalmanPoint.reset]

/-- The debounce-relevant fields of `HandGestureState`: `raw_gesture`,
`stable_gesture`, `_last_change`. -/
structure DState where
  rawGesture : Gesture
  stableGesture : Gesture
  lastChange : ℚ
deriving DecidableEq

/-- `HandGestureState.__init__`: both gestures `NONE`,
`_last_change = 0.0`. -/
def DState.mk0 : DState := ⟨.NONE, .NONE, 0⟩

/-- The dwell `_debounce` requires of the incoming raw gesture:
`DEBOUNCE_DELAY`, shortened by the factor `0.6` for `DRAWING` and
`FIST`. -/
def delayFor (raw : Gesture) : ℚ :=
  if raw = .DRAWING ∨ raw = .FIST then DEBOUNCE_DELAY * (3/5) else DEBOUNCE_DELAY

/-- `GestureEngine._debounce`, with `time.time()` passed as `now`: a raw
change restamps `_last_change`; the raw gesture is promoted to stable
once the dwell has elapsed since the last raw change. -/
def debounce (st : DState) (now : ℚ) (raw : Gesture) : DState :=
  let st1 := if raw ≠ st.rawGesture then { st with rawGesture := raw, lastChange := now }
             else st
  if delayFor raw ≤ now - st1.lastChange ∧ st1.stableGesture ≠ st1.rawGesture then
    { st1 with stableGesture := st1.rawGesture }
  else st1

/-- The debouncer state after feeding the timestamped raw
classifications `xs` (frames `(time, gesture)`, in order) to `st`. -/
def debounceRun (st : DState) (xs : List (ℚ × Gesture)) : DState :=
  xs.foldl (fun s x => debounce s x.1 x.2) st

/-- The state after the first `k` frames of `xs`, starting fresh. -/
def stateAt (xs : List (ℚ × Gesture)) (k : ℕ) : DState :=
  debounceRun DState.mk0 (xs.take k)

/-- The stable gesture changes at frame `k`. -/
def changesAt (xs : List (ℚ × Gesture)) (k : ℕ) : Prop :=
  (stateAt xs (k + 1)).stableGesture ≠ (stateAt xs k).stableGesture

theorem delayFor_pos (g : Gesture) : 0 < delayFor g := by
  unfold delayFor DEBOUNCE_DELAY
  split <;> norm_num

theorem debounceRun_append (st : DState) (l1 l2 : List (ℚ × Gesture)) :
    debounceRun st (l1 ++ l2) = debounceRun (debounceRun st l1) l2 :=
  List.foldl_append _ _ l1 l2

/-- A step that changes the stable gesture promotes the incoming raw
gesture, which already was the recorded raw gesture (a frame that
restamps `_last_change` cannot promote, the dwell being positive), and
the dwell had elapsed. -/
theorem debounce_change {st : DState} {now : ℚ} {raw : Gesture}
    (h : (debounce st now raw).stableGesture ≠ st.stableGesture) :
    raw = st.rawGesture ∧ st.stableGesture ≠ raw ∧
    delayFor raw ≤ now - st.lastChange ∧
    debounce st now raw = { st with stableGesture := raw } := by
  unfold debounce at h ⊢
  by_cases ha : raw ≠ st.rawGesture
  · exfalso
    rw [if_pos ha] at h
    dsimp only at h
    by_cases hc : delayFor raw ≤ now - now ∧ st.stableGesture ≠ raw
    · linarith [delayFor_pos raw, hc.1]
    · rw [if_neg hc] at h
      exact h rfl
  · rw [if_neg ha] at h ⊢
    push_neg at ha
    by_cases hc : delayFor raw ≤ now - st.lastChange ∧ st.stableGesture ≠ st.rawGesture
    · rw [if_pos hc] at h ⊢
      refine ⟨ha, ?_, hc.1, ?_⟩
      · rw [ha]
        exact hc.2
      · rw [ha]
    · rw [if_neg hc] at h
      exact absurd rfl h

theorem debounce_rawGesture (st : DState) (now : ℚ) (raw : Gesture) :
    (debounce st now raw).rawGesture = raw := by
  unfold debounce
  dsimp only
  split_ifs with h1 h2 h3 <;>
    first
    | rfl
    | (push_neg at h1; exact h1.symm)

theorem debounce_lastChange (st : DState) (now : ℚ) (raw : Gesture) :
    (debounce st now raw).lastChange
      = if raw ≠ st.rawGesture then now else st.lastChange := by
  unfold debounce
  dsimp only
  split_ifs with h1 h2 h3 <;> rfl

/-- One step preserves the disjunction "stable = raw, or `_last_change`
is at least `t0`", for any `t0` at most the frame time. -/
theorem debounce_keeps_window {st : DState} {now : ℚ} {raw : Gesture} (t0 : ℚ)
    (ht : t0 ≤ now) (h : st.stableGesture = st.rawGesture ∨ t0 ≤ st.lastChange) :
    (debounce st now raw).stableGesture = (debounce st now raw).rawGesture ∨
      t0 ≤ (debounce st now raw).lastChange := by
  unfold debounce
  dsimp only
  split_ifs with h1 h2 h3
  · left
    rfl
  · right
    exact ht
  · left
    rfl
  · exact h

/-- Over a time-sorted run, every processed frame strictly newer than
`_last_change` carried the recorded raw gesture: `_last_change` is the
time the raw gesture last changed. -/
theorem debounce_window (s0 : DState) (xs : List (ℚ × Gesture))
    (hsort : List.Pairwise (fun a b => a.1 ≤ b.1) xs) :
    ∀ p ∈ xs, (debounceRun s0 xs).lastChange < p.1 →
      p.2 = (debounceRun s0 xs).rawGesture := by
  induction xs using List.reverseRecOn with
  | nil =>
    intro p hp
    simp at hp
  | append_singleton l y ih =>
    have hl : List.Pairwise (fun a b => a.1 ≤ b.1) l :=
      List.Pairwise.sublist (List.sublist_append_left l [y]) hsort
    have hle : ∀ a ∈ l, a.1 ≤ y.1 := by
      intro a ha
      exact (List.pairwise_append.mp hsort).2.2 a ha y (by simp)
    intro p hp hlt
    rw [debounceRun_append] at hlt ⊢
    have hsing : debounceRun (debounceRun s0 l) [y]
        = debounce (debounceRun s0 l) y.1 y.2 := rfl
    rw [hsing] at hlt ⊢
    rcases List.mem_append.mp hp with hpl | hpy
    · rw [debounce_lastChange] at hlt
      by_cases hy : y.2 ≠ (debounceRun s0 l).rawGesture
      · rw [if_pos hy] at hlt
        exact absurd hlt (not_lt.mpr (hle p hpl))
      · rw [if_neg hy] at hlt
        push_neg at hy
        rw [debounce_rawGesture, hy]
        exact ih hl p hpl hlt
    · rw [List.mem_singleton] at hpy
      subst hpy
      rw [debounce_rawGesture]

/-- Down a time-sorted run that starts with stable = raw (or with
`_last_change ≥ t0`) and whose frames all carry times at least `t0`, a
stable change at frame `k` can only happen once the frame time has
cleared `t0` by the full dwell of the promoted gesture. -/
theorem debounce_change_needs_dwell :
    ∀ (ys : List (ℚ × Gesture)) (s : DState) (t0 : ℚ),
      (s.stableGesture = s.rawGesture ∨ t0 ≤ s.lastChange) →
      (∀ p ∈ ys, t0 ≤ p.1) →
      ∀ k, (hk : k < ys.length) →
        (debounceRun s (ys.take (k + 1))).stableGesture
          ≠ (debounceRun s (ys.take k)).stableGesture →
        t0 + delayFor (ys.get ⟨k, hk⟩).2 ≤ (ys.get ⟨k, hk⟩).1
  | [], _, _, _, _, k, hk => absurd hk (by simp)
  | y :: ys, s, t0, hinv, hts, 0, hk => by
    intro hchg
    have hchg' : (debounce s y.1 y.2).stableGesture ≠ s.stableGesture := hchg
    obtain ⟨hraw, hne, hdel, _⟩ := debounce_change hchg'
    rcases hinv with hst | hlc
    · exact absurd (hst.trans hraw.symm) hne
    · have hy : t0 ≤ y.1 := hts y (by simp)
      show t0 + delayFor y.2 ≤ y.1
      linarith
  | y :: ys, s, t0, hinv, hts, k + 1, hk => by
    intro hchg
    have hty : t0 ≤ y.1 := hts y (by simp)
    have hinv' := @debounce_keeps_window s y.1 y.2 t0 hty hinv
    have hts' : ∀ p ∈ ys, t0 ≤ p.1 := fun p hp => hts p (by simp [hp])
    have hk' : k < ys.length := by simpa using hk
    have hchg' : (debounceRun (debounce s y.1 y.2) (ys.take (k + 1))).stableGesture
        ≠ (debounceRun (debounce s y.1 y.2) (ys.take k)).stableGesture := by
      simpa [List.take_succ_cons, debounceRun, List.foldl_cons] using hchg
    have := debounce_change_needs_dwell ys (debounce s y.1 y.2) t0 hinv' hts' k hk' hchg'
    simpa [List.get_cons_succ] using this

theorem stateAt_succ (xs : List (ℚ × Gesture)) (j : ℕ) (hj : j < xs.length) :
    stateAt xs (j + 1)
      = debounce (stateAt xs j) (xs.get ⟨j, hj⟩).1 (xs.get ⟨j, hj⟩).2 := by
  unfold stateAt
  rw [List.take_succ, List.getElem?_eq_getElem hj, Option.toList_some,
      debounceRun_append]
  simp only [List.get_eq_getElem]
  rfl

theorem stateAt_add (xs : List (ℚ × Gesture)) (i m : ℕ) :
    stateAt xs (i + m) = debounceRun (stateAt xs i) ((xs.drop i).take m) := by
  unfold stateAt
  rw [List.take_add, debounceRun_append]

/-- C4 — Debounce stability: over any time-sorted frame sequence, when
the stable gesture changes at frame `j` it becomes that frame's raw
gesture, the dwell for that gesture had fully elapsed since
`_last_change`, every processed frame newer than `_last_change` already
carried that same raw gesture (the gesture persisted unchanged for at
least the dwell), and any earlier stable change at a frame `i < j` lies
at least the dwell `delayFor` of the newly promoted gesture before frame
`j` — the stable output changes at most once per dwell interval (the
shorter dwell applying to `DRAWING` and `FIST`). -/
theorem c4_debounce_stability (xs : List (ℚ × Gesture))
    (hsort : List.Pairwise (fun a b => a.1 ≤ b.1) xs)
    (j : ℕ) (hj : j < xs.length) (hchg : changesAt xs j) :
    ((stateAt xs (j + 1)).stableGesture = (xs.get ⟨j, hj⟩).2 ∧
     delayFor (xs.get ⟨j, hj⟩).2
       ≤ (xs.get ⟨j, hj⟩).1 - (stateAt xs (j + 1)).lastChange ∧
     ∀ p ∈ xs.take (j + 1),
       (stateAt xs (j + 1)).lastChange < p.1 → p.2 = (xs.get ⟨j, hj⟩).2) ∧
    ∀ i, (hi : i < j) → changesAt xs i →
      (xs.get ⟨i, hi.trans hj⟩).1 + delayFor (xs.get ⟨j, hj⟩).2
        ≤ (xs.get ⟨j, hj⟩).1 := by
  have hstep := stateAt_succ xs j hj
  have hchg' : (debounce (stateAt xs j) (xs.get ⟨j, hj⟩).1
      (xs.get ⟨j, hj⟩).2).stableGesture ≠ (stateAt xs j).stableGesture := by
    rw [← hstep]
    exact hchg
  obtain ⟨hraw, hne, hdel, heq⟩ := debounce_change hchg'
  have hrg : (stateAt xs (j + 1)).rawGesture = (xs.get ⟨j, hj⟩).2 := by
    rw [hstep, debounce_rawGesture]
  constructor
  · refine ⟨?_, ?_, ?_⟩
    · rw [hstep, heq]
    · rw [hstep, heq]
      exact hdel
    · have hw := debounce_window DState.mk0 (xs.take (j + 1))
        (List.Pairwise.sublist (List.take_sublist _ _) hsort)
      intro p hp hlt
      rw [← hrg]
      exact hw p hp hlt
  · intro i hi hchgi
    obtain ⟨k', rfl⟩ : ∃ k', j = i + 1 + k' := ⟨j - (i + 1), by omega⟩
    have hij : i < xs.length := by omega
    have hstepi := stateAt_succ xs i hij
    have hchgi' : (debounce (stateAt xs i) (xs.get ⟨i, hij⟩).1
        (xs.get ⟨i, hij⟩).2).stableGesture ≠ (stateAt xs i).stableGesture := by
      rw [← hstepi]
      exact hchgi
    obtain ⟨hrawi, hnei, hdeli, heqi⟩ := debounce_change hchgi'
    have hinv : (stateAt xs (i + 1)).stableGesture
        = (stateAt xs (i + 1)).rawGesture ∨
        (xs.get ⟨i, hij⟩).1 ≤ (stateAt xs (i + 1)).lastChange := by
      left
      rw [hstepi, heqi]
      exact hrawi
    have hts : ∀ p ∈ xs.drop (i + 1), (xs.get ⟨i, hij⟩).1 ≤ p.1 := by
      intro p hp
      obtain ⟨m, hm, hpm⟩ := List.mem_iff_getElem.mp hp
      rw [List.getElem_drop] at hpm
      rw [← hpm]
      simp only [List.get_eq_getElem]
      exact List.pairwise_iff_getElem.mp hsort i (i + 1 + m) hij
        (by simp only [List.length_drop] at hm; omega) (by omega)
    have hk' : k' < (xs.drop (i + 1)).length := by
      simp only [List.length_drop]
      omega
    have hchgk : (debounceRun (stateAt xs (i + 1))
          ((xs.drop (i + 1)).take (k' + 1))).stableGesture
        ≠ (debounceRun (stateAt xs (i + 1))
          ((xs.drop (i + 1)).take k')).stableGesture := by
      rw [← stateAt_add, ← stateAt_add]
      exact hchg
    have hK := debounce_change_needs_dwell (xs.drop (i + 1)) (stateAt xs (i + 1))
      (xs.get ⟨i, hij⟩).1 hinv hts k' hk' hchgk
    have hgd : (xs.drop (i + 1)).get ⟨k', hk'⟩ = xs.get ⟨i + 1 + k', hj⟩ := by
      simp only [List.get_eq_getElem, List.getElem_drop]
    rw [hgd] at hK
    linarith

/-- The two-frame run used to exercise `c4_debounce_stability`: a raw
`FIST` at time 0 and again at time 1. -/
def fistFrames : List (ℚ × Gesture) := [(0, .FIST), (1, .FIST)]

theorem stateAt_fistFrames_one : stateAt fistFrames 1 = ⟨.FIST, .NONE, 0⟩ := by
  show debounce DState.mk0 0 .FIST = _
  unfold debounce
  rw [if_pos (show Gesture.FIST ≠ DState.mk0.rawGesture by decide)]
  dsimp only [DState.mk0]
  split_ifs with h
  · exfalso
    have h1 := h.1
    norm_num [delayFor, DEBOUNCE_DELAY] at h1
  · rfl

theorem stateAt_fistFrames_two : stateAt fistFrames 2 = ⟨.FIST, .FIST, 0⟩ := by
  show debounce (debounce DState.mk0 0 .FIST) 1 .FIST = _
  rw [show debounce DState.mk0 0 .FIST = (⟨.FIST, .NONE, 0⟩ : DState)
        from stateAt_fistFrames_one]
  unfold debounce
  rw [if_neg (show ¬(Gesture.FIST ≠ (⟨.FIST, .NONE, 0⟩ : DState).rawGesture) by decide)]
  dsimp only
  split_ifs with h
  · rfl
  · exfalso
    apply h
    refine ⟨?_, by decide⟩
    norm_num [delayFor, DEBOUNCE_DELAY]

theorem c4_debounce_stability_witness :
    (stateAt fistFrames 2).stableGesture = Gesture.FIST ∧
    delayFor Gesture.FIST ≤ 1 - (stateAt fistFrames 2).lastChange :=
  ⟨(c4_debounce_stability fistFrames
      (by norm_num [fistFrames, List.pairwise_cons]) 1 (by norm_num [fistFrames])
      (by rw [changesAt, stateAt_fistFrames_two, stateAt_fistFrames_one]; decide)).1.1,
   (c4_debounce_stability fistFrames
      (by norm_num [fistFrames, List.pairwise_cons]) 1 (by norm_num [fistFrames])
      (by rw [changesAt, stateAt_fistFrames_two, stateAt_fistFrames_one]; decide)).1.2.1⟩

end HandGesture

namespace StateM

/-- `DrawingState.ALL` (`src/core/state_manager.py`): the defined
drawing states. -/
def DrawingStateAll : List String :=
  ["IDLE", "ARMED", "DRAWING", "SHAPE_PREVIEW", "COMMITTED", "PAUSED"]

/-- The fields of the `AppState` dataclass that `set_drawing_state`
reads or writes; the others are irrelevant to the transition guard. -/
structure AppState where
  drawing_state : String
  last_state_reason : String
  last_state_ts : ℚ
deriving DecidableEq

/-- `AppState.set_drawing_state`: the result pairs the state object
after the call with the call's outcome — `Except.error` models the
raised `ValueError`, whose membership check precedes every mutation, so
the paired state is unchanged on error; `Except.ok b` models the Bool
return. The wall-clock argument stands for `time.time()`; the
`[DRAW_STATE]` log line is a side effect outside the model. -/
def setDrawingState (s : AppState) (newState reason : String) (now : ℚ) :
    AppState × Except String Bool :=
  if newState ∉ DrawingStateAll then
    (s, Except.error ("Invalid drawing state: " ++ newState))
  else if s.drawing_state = newState then (s, Except.ok false)
  else ({ drawing_state := newState, last_state_reason := reason, last_state_ts := now },
        Except.ok true)

/-- C9 — Invalid transition fails loudly: for every current state,
requesting a transition to a target outside the defined set raises
`ValueError` and leaves the stored state unchanged; for every target
within the defined set no error is raised. -/
theorem c9_invalid_transition (s : AppState) (newState reason : String) (now : ℚ) :
    (newState ∉ DrawingStateAll →
      setDrawingState s newState reason now
        = (s, Except.error ("Invalid drawing state: " ++ newState))) ∧
    (newState ∈ DrawingStateAll →
      ∃ b, (setDrawingState s newState reason now).2 = Except.ok b) := by
  constructor
  · intro hout
    simp [setDrawingState, hout]
  · intro hin
    by_cases heq : s.drawing_state = newState
    · exact ⟨false, by simp [setDrawingState, hin, heq]⟩
    · exact ⟨true, by simp [setDrawingState, hin, heq]⟩

theorem c9_invalid_transition_witness :
    (setDrawingState ⟨"IDLE", "", 0⟩ "LIMBO" "" 0
      = (⟨"IDLE", "", 0⟩, Except.error "Invalid drawing state: LIMBO")) ∧
    (∃ b, (setDrawingState ⟨"IDLE", "", 0⟩ "PAUSED" "pause" 1).2 = Except.ok b) :=
  ⟨by simpa using (c9_invalid_transition ⟨"IDLE", "", 0⟩ "LIMBO" "" 0).1 (by decide),
   (c9_invalid_transition ⟨"IDLE", "", 0⟩ "PAUSED" "pause" 1).2 (by decide)⟩

end StateM

namespace Shape

/-- Session states of `ShapeEngine` (`src/drawing/shape_engine.py`):
`IDLE = "idle"`, `ANCHORING = "anchoring"`, `DRAGGING = "dragging"`. -/
inductive SState where
  | idle
  | anchoring
  | dragging
deriving DecidableEq, Repr

/-- `ShapeEngine.SHAPES`. -/
def SHAPES : List String :=
  ["rectangle", "circle", "ellipse", "line", "triangle", "heart"]

/-- Python's `round` (round-half-to-even), as `int(round(x))` uses it. -/
def pyRound (x : ℚ) : ℤ :=
  if x - ⌊x⌋ < 1/2 then ⌊x⌋
  else if 1/2 < x - ⌊x⌋ then ⌊x⌋ + 1
  else if ⌊x⌋ % 2 = 0 then ⌊x⌋ else ⌊x⌋ + 1

/-- The `ShapeEngine` session state: fields mirror `state`,
`active_shape`, `anchor`, `current`, `_hold_start`, `_anchor_cand`,
`_ema_tip` (the configured radii are the module constants, as in
`__init__`). Wall-clock readings are rationals. -/
structure ShapeEngine where
  state : SState
  active_shape : String
  anchor : Option (ℤ × ℤ)
  current : Option (ℤ × ℤ)
  hold_start : Option ℚ
  anchor_cand : Option (ℤ × ℤ)
  ema_tip : Option (ℚ × ℚ)
deriving DecidableEq

/-- `ShapeEngine.__init__`. -/
def ShapeEngine.mk0 : ShapeEngine :=
  ⟨.idle, "rectangle", none, none, none, none, none⟩

/-- `ShapeEngine._full_reset`. -/
def fullReset (e : ShapeEngine) : ShapeEngine :=
  { e with state := .idle, anchor := none, current := none,
           hold_start := none, anchor_cand := none, ema_tip := none }

/-- `ShapeEngine._partial_reset`: clears the hold candidate and EMA but
leaves `anchor`/`current` untouched. -/
def partialReset (e : ShapeEngine) : ShapeEngine :=
  { e with state := .idle, hold_start := none, anchor_cand := none, ema_tip := none }

/-- `ShapeEngine._smooth_tip`: exponential smoothing of the fingertip,
rounded to integer pixels; a `None` fingertip clears the EMA. -/
def smoothTip (e : ShapeEngine) (fingertip : Option (ℤ × ℤ)) :
    Option (ℤ × ℤ) × ShapeEngine :=
  match fingertip with
  | none => (none, { e with ema_tip := none })
  | some (fx, fy) =>
    let new : ℚ × ℚ :=
      match e.ema_tip with
      | none => ((fx : ℚ), (fy : ℚ))
      | some (ex, ey) =>
        (ex + SHAPE_EMA_ALPHA * ((fx : ℚ) - ex), ey + SHAPE_EMA_ALPHA * ((fy : ℚ) - ey))
    (some (pyRound new.1, pyRound new.2), { e with ema_tip := some new })

/-- Squared Euclidean distance. `ShapeEngine._dist` returns
`sqrt(dx² + dy²)`; everywhere the source compares that square root to a
nonnegative threshold, the model compares the squares — exactly
equivalent over the integer coordinates involved. -/
def dist2 (p1 p2 : ℤ × ℤ) : ℤ :=
  (p1.1 - p2.1) * (p1.1 - p2.1) + (p1.2 - p2.2) * (p1.2 - p2.2)

/-- The body of `ShapeEngine.update` after `_smooth_tip` has run. In the
ANCHORING branch the source dereferences `_anchor_cand`/`_hold_start`
unconditionally; both are always set on entry to that state, and in the
(unreachable) `None` case the model leaves the session unchanged. -/
def updateCore (e : ShapeEngine) (stableTip : Option (ℤ × ℤ)) (drawingActive : Bool)
    (now : ℚ) : ShapeEngine :=
  match e.state with
  | .idle =>
    match stableTip, drawingActive with
    | some tip, true =>
      { e with hold_start := some now, anchor_cand := some tip, state := .anchoring }
    | _, _ => e
  | .anchoring =>
    match stableTip, drawingActive with
    | some tip, true =>
      match e.anchor_cand, e.hold_start with
      | some cand, some hs =>
        if SHAPE_STILL_RADIUS_PX < |tip.1 - cand.1| ∨
            SHAPE_STILL_RADIUS_PX < |tip.2 - cand.2| then
          { e with hold_start := some now, anchor_cand := some tip }
        else if SHAPE_HOLD_SECONDS ≤ now - hs then
          { e with anchor := some cand, current := some cand, state := .dragging }
        else e
      | _, _ => e
    | _, _ => partialReset e
  | .dragging =>
    match stableTip, drawingActive with
    | some tip, true =>
      match e.current with
      | none => { e with current := some tip }
      | some cur =>
        if SHAPE_MIN_MOVE_PX * SHAPE_MIN_MOVE_PX ≤ dist2 cur tip then
          { e with current := some tip }
        else e
    | _, _ => e

/-- `ShapeEngine.update(fingertip, drawing_active)`, with `time.time()`
passed explicitly as `now`. -/
def update (e : ShapeEngine) (fingertip : Option (ℤ × ℤ)) (drawingActive : Bool)
    (now : ℚ) : ShapeEngine :=
  updateCore (smoothTip e fingertip).2 (smoothTip e fingertip).1 drawingActive now

/-- `ShapeEngine._is_valid_shape` (square-root comparison stated on
squares): "line" needs straight-line length at least
`SHAPE_MIN_SIZE_PX`; every other kind needs max(width, height) at least
`SHAPE_MIN_SIZE_PX`. -/
def isValidShape (e : ShapeEngine) (p1 p2 : ℤ × ℤ) : Bool :=
  if e.active_shape = "line" then
    decide (SHAPE_MIN_SIZE_PX * SHAPE_MIN_SIZE_PX ≤ dist2 p1 p2)
  else
    decide (SHAPE_MIN_SIZE_PX ≤ max |p1.1 - p2.1| |p1.2 - p2.2|)

/-- `ShapeEngine.finalize()`: (the returned triple or `None`, the
session after the call). Outside DRAGGING, or with a missing point, it
returns `None` without touching the session; otherwise it fully resets
and returns the triple only for a valid-sized shape. -/
def finalize (e : ShapeEngine) : Option (String × (ℤ × ℤ) × (ℤ × ℤ)) × ShapeEngine :=
  match e.state, e.anchor, e.current with
  | .dragging, some a, some c =>
    if isValidShape e a c then (some (e.active_shape, a, c), fullReset e)
    else (none, fullReset e)
  | _, _, _ => (none, e)

/-- `ShapeEngine.cancel()`. -/
def cancel (e : ShapeEngine) : ShapeEngine := fullReset e

/-- `ShapeEngine.set_shape`: only a known shape name is accepted, and
accepting one fully resets the session. -/
def setShape (e : ShapeEngine) (shape : String) : ShapeEngine :=
  if shape ∈ SHAPES then fullReset { e with active_shape := shape } else e

theorem smoothTip_fields (e : ShapeEngine) (tip : Option (ℤ × ℤ)) :
    ((smoothTip e tip).2).state = e.state ∧
    ((smoothTip e tip).2).anchor = e.anchor ∧
    ((smoothTip e tip).2).current = e.current := by
  rcases tip with _ | ⟨fx, fy⟩ <;> simp [smoothTip]

/-- C5 — Shape minimum size: in DRAGGING with both points set,
`finalize()` returns the `(shape, anchor, endpoint)` triple exactly when
the minimum-size policy holds; below threshold it returns `None` and
fully resets the session to IDLE. -/
theorem c5_finalize_min_size (e : ShapeEngine) (a c : ℤ × ℤ)
    (hs : e.state = SState.dragging) (ha : e.anchor = some a) (hc : e.current = some c) :
    ((finalize e).1 = some (e.active_shape, a, c) ↔ isValidShape e a c = true) ∧
    (isValidShape e a c = false →
      (finalize e).1 = none ∧ (finalize e).2.state = SState.idle ∧
      (finalize e).2.anchor = none ∧ (finalize e).2.current = none) := by
  by_cases hv : isValidShape e a c
  · simp [finalize, hs, ha, hc, hv]
  · simp [finalize, hs, ha, hc, hv, fullReset]

/-- The concrete scenario: a DRAGGING session with anchor `(100, 100)`
and drag point `(105, 102)` (the default kind, "rectangle"). -/
def smallDrag : ShapeEngine :=
  { ShapeEngine.mk0 with
      state := .dragging, anchor := some (100, 100), current := some (105, 102) }

theorem c5_finalize_min_size_witness :
    (finalize smallDrag).1 = none ∧ (finalize smallDrag).2.state = SState.idle ∧
    (finalize smallDrag).2.anchor = none ∧ (finalize smallDrag).2.current = none :=
  (c5_finalize_min_size smallDrag (100, 100) (105, 102) rfl rfl rfl).2 (by decide)

/-- The session states reachable from a fresh `ShapeEngine` by any
sequence of `update`, `finalize`, `cancel` and `set_shape` calls. -/
inductive Reachable : ShapeEngine → Prop where
  | init : Reachable ShapeEngine.mk0
  | update (e : ShapeEngine) (tip : Option (ℤ × ℤ)) (act : Bool) (now : ℚ) :
      Reachable e → Reachable (update e tip act now)
  | finalize (e : ShapeEngine) : Reachable e → Reachable (finalize e).2
  | cancel (e : ShapeEngine) : Reachable e → Reachable (cancel e)
  | set (e : ShapeEngine) (shape : String) : Reachable e → Reachable (setShape e shape)

/-- Any single `updateCore` step either ends in DRAGGING, or leaves the
`anchor`/`current` points exactly as they were (and cannot leave
DRAGGING). -/
theorem updateCore_cases (e : ShapeEngine) (stip : Option (ℤ × ℤ)) (act : Bool) (now : ℚ) :
    (updateCore e stip act now).state = SState.dragging ∨
    ((updateCore e stip act now).anchor = e.anchor ∧
     (updateCore e stip act now).current = e.current ∧
     (e.state = SState.dragging → (updateCore e stip act now).state = SState.dragging)) := by
  unfold updateCore
  rcases hs : e.state with _ | _ | _
  · rcases stip with _ | tip <;> cases act <;> simp [hs]
  · rcases stip with _ | tip <;> cases act <;> simp only [hs] <;>
      try (right; exact ⟨rfl, rfl, by simp [hs]⟩)
    rcases hac : e.anchor_cand with _ | cand <;> rcases hhs : e.hold_start with _ | hstart <;>
      dsimp only <;>
      try (right; exact ⟨rfl, rfl, by simp [hs]⟩)
    by_cases h1 : SHAPE_STILL_RADIUS_PX < |tip.1 - cand.1| ∨
        SHAPE_STILL_RADIUS_PX < |tip.2 - cand.2|
    · rw [if_pos h1]
      right
      exact ⟨rfl, rfl, by simp [hs]⟩
    · rw [if_neg h1]
      by_cases h2 : SHAPE_HOLD_SECONDS ≤ now - hstart
      · rw [if_pos h2]
        left
        rfl
      · rw [if_neg h2]
        right
        exact ⟨rfl, rfl, by simp [hs]⟩
  · left
    rcases stip with _ | tip <;> cases act <;> simp only [hs] <;> try exact hs
    rcases hcur : e.current with _ | cur <;> dsimp only
    by_cases h1 : SHAPE_MIN_MOVE_PX * SHAPE_MIN_MOVE_PX ≤ dist2 cur tip
    · rw [if_pos h1]
    · rw [if_neg h1]
      exact hs

/-- `finalize` either leaves the session untouched or fully resets it. -/
theorem finalize_snd (e : ShapeEngine) :
    (finalize e).2 = e ∨ (finalize e).2 = fullReset e := by
  obtain ⟨st, sh, an, cu, hst, ac, em⟩ := e
  rcases st <;> rcases an with _ | a <;> rcases cu with _ | c <;>
    try exact Or.inl rfl
  right
  dsimp only [finalize]
  split_ifs <;> rfl

/-- C7 — Shape session invariant: in every state reachable from
initialization by any sequence of `update`, `finalize`, `cancel` and
`set_shape` calls, `anchor` and `current` are non-null only while the
session is DRAGGING (in IDLE and ANCHORING both are null). -/
theorem c7_points_only_while_dragging (e : ShapeEngine) (hr : Reachable e)
    (hne : e.state ≠ SState.dragging) : e.anchor = none ∧ e.current = none := by
  induction hr with
  | init => exact ⟨rfl, rfl⟩
  | update e tip act now _ ih =>
    have hf := smoothTip_fields e tip
    rcases updateCore_cases (smoothTip e tip).2 (smoothTip e tip).1 act now with h | ⟨h1, h2, h3⟩
    · exact absurd h hne
    · rw [update] at hne ⊢
      rw [h1, h2, hf.2.1, hf.2.2]
      apply ih
      intro hdrag
      exact hne (h3 (hf.1.trans hdrag))
  | finalize e _ ih =>
    rcases finalize_snd e with h | h
    · rw [h] at hne ⊢
      exact ih hne
    · rw [h]
      exact ⟨rfl, rfl⟩
  | cancel e _ _ => exact ⟨rfl, rfl⟩
  | set e shape _ ih =>
    by_cases hin : shape ∈ SHAPES
    · simp [setShape, hin, fullReset]
    · simp only [setShape, hin, if_neg, if_false]
      exact ih (by simpa [setShape, hin] using hne)

theorem c7_points_only_while_dragging_witness :
    ShapeEngine.mk0.anchor = none ∧ ShapeEngine.mk0.current = none :=
  c7_points_only_while_dragging ShapeEngine.mk0 Reachable.init (by decide)

end Shape

namespace Ink

/-- A pixel location (column, row). -/
abbrev Pix := ℤ × ℤ

/-- A bounding box `(x1, y1, x2, y2)` as the source stores `_bbox`:
`x2`/`y2` exclusive, since the box feeds the Python slices
`[y1:y2, x1:x2]` in `blend`. -/
structure Rect where
  x1 : ℤ
  y1 : ℤ
  x2 : ℤ
  y2 : ℤ
deriving DecidableEq, Repr

/-- The pixels a box covers (what `blend` composites). -/
def Rect.holds (r : Rect) (p : Pix) : Prop :=
  r.x1 ≤ p.1 ∧ p.1 < r.x2 ∧ r.y1 ≤ p.2 ∧ p.2 < r.y2

instance (r : Rect) (p : Pix) : Decidable (r.holds p) := by
  unfold Rect.holds
  infer_instance

/-- The canvas rectangle (the default `DISPLAY_WIDTH × DISPLAY_HEIGHT`
raster) as a finite pixel set: cv2 clips every drawing call to the
array. -/
def canvasPix : Finset Pix :=
  Finset.Icc 0 (DISPLAY_WIDTH - 1) ×ˢ Finset.Icc 0 (DISPLAY_HEIGHT - 1)

/-- The box `[a, b] × [c, d]` clipped to the canvas. -/
def clipBox (a b c d : ℤ) : Finset Pix :=
  (Finset.Icc a b ×ˢ Finset.Icc c d) ∩ canvasPix

/-- The pixel-extent fragment of `CanvasEngine`
(`src/drawing/canvas_engine.py`): `ink` is the set of pixels of the BGRA
layer with non-zero alpha — maintained as an over-approximation, since a
cv2 drawing call inks at most its modelled footprint and an eraser
stroke only removes ink — together with the cached dirty box `_bbox`,
the `_bbox_stale` flag, and the snapshot stacks (head = top, as in the
`Undo` model). -/
structure CanvasEngine where
  ink : Finset Pix
  bbox : Option Rect
  bboxStale : Bool
  undoStack : List (Finset Pix)
  redoStack : List (Finset Pix)

/-- `CanvasEngine.__init__` at the default display size: a blank,
fully transparent raster. -/
def CanvasEngine.mk0 : CanvasEngine := ⟨∅, none, false, [], []⟩

/-- `CanvasEngine._mark_bbox`: with `stale=True` only set the stale
flag; otherwise clamp the rect to the canvas, drop it when degenerate,
else union it into the cached box and clear staleness. -/
def markBbox (e : CanvasEngine) (x1 y1 x2 y2 : ℤ) (stale : Bool) : CanvasEngine :=
  if stale then { e with bboxStale := true }
  else
    let a1 := max 0 (min DISPLAY_WIDTH x1)
    let b1 := max 0 (min DISPLAY_HEIGHT y1)
    let a2 := max 0 (min DISPLAY_WIDTH x2)
    let b2 := max 0 (min DISPLAY_HEIGHT y2)
    if a2 ≤ a1 ∨ b2 ≤ b1 then e
    else
      match e.bbox with
      | none => { e with bbox := some ⟨a1, b1, a2, b2⟩, bboxStale := false }
      | some r =>
        { e with bbox := some ⟨min r.x1 a1, min r.y1 b1, max r.x2 a2, max r.y2 b2⟩,
                 bboxStale := false }

/-- Modelled from the spec: the ink footprint of `cv2.line` (the cv2
library is outside the repository). An anti-aliased stroke of thickness
`t` between two points stays within the segment's bounding box inflated
by half the thickness plus the anti-aliasing spill; the model inflates
by `t + 1`, a safe over-approximation, clipped to the canvas. -/
def lineFoot (a b : Pix) (t : ℕ) : Finset Pix :=
  clipBox (min a.1 b.1 - ((t : ℤ) + 1)) (max a.1 b.1 + ((t : ℤ) + 1))
          (min a.2 b.2 - ((t : ℤ) + 1)) (max a.2 b.2 + ((t : ℤ) + 1))

/-- Modelled from the spec: the footprint of the filled dot
`cv2.circle(pt, max(1, t//2), FILLED)` — the disc inflated by one
anti-aliasing pixel, clipped to the canvas. -/
def dotFoot (pt : Pix) (t : ℕ) : Finset Pix :=
  clipBox (pt.1 - ((max 1 (t / 2) : ℕ) + 1)) (pt.1 + ((max 1 (t / 2) : ℕ) + 1))
          (pt.2 - ((max 1 (t / 2) : ℕ) + 1)) (pt.2 + ((max 1 (t / 2) : ℕ) + 1))

/-- Modelled from the spec: the footprint of a shape drawn inside the
sorted drag rectangle `[x1, x2] × [y1, y2]` (rectangle, axis-aligned
ellipse, triangle with vertices on the rectangle): the rectangle
inflated by `t + 1`, clipped to the canvas. -/
def boxFoot (x1 y1 x2 y2 : ℤ) (t : ℕ) : Finset Pix :=
  clipBox (x1 - ((t : ℤ) + 1)) (x2 + ((t : ℤ) + 1))
          (y1 - ((t : ℤ) + 1)) (y2 + ((t : ℤ) + 1))

/-- Modelled from the spec: the ink of the circle outline
`cv2.circle((cx, cy), r, thickness=t)` — the pixels whose distance to
the center is within `t/2` of the radius (stated through squares scaled
by 4), clipped to the canvas. The stroke's centerline pixels (distance
exactly `r`) are inked by any faithful rasterizer. -/
def circleFoot (cx cy r : ℤ) (t : ℕ) : Finset Pix :=
  (clipBox (cx - (r + (t : ℤ) + 1)) (cx + (r + (t : ℤ) + 1))
           (cy - (r + (t : ℤ) + 1)) (cy + (r + (t : ℤ) + 1))).filter
    (fun p => (2 * r - (t : ℤ)) ^ 2 ≤ 4 * ((p.1 - cx) ^ 2 + (p.2 - cy) ^ 2) ∧
              4 * ((p.1 - cx) ^ 2 + (p.2 - cy) ^ 2) ≤ (2 * r + (t : ℤ)) ^ 2)

/-- Modelled from the spec: the heart polyline of `_draw_heart` stays
within `size` of its center in either axis (the parametric formula's
amplitudes are at most `0.85·size` and `0.797·size`), inflated by
`t + 1`, clipped to the canvas. -/
def heartFoot (cx cy size : ℤ) (t : ℕ) : Finset Pix :=
  clipBox (cx - (size + (t : ℤ) + 1)) (cx + (size + (t : ℤ) + 1))
          (cy - (size + (t : ℤ) + 1)) (cy + (size + (t : ℤ) + 1))

/-- `draw_shape`'s circle radius
`max(1, int(((x2-x1)**2 + (y2-y1)**2)**0.5 // 2))` — half the diagonal
of the sorted drag rectangle, via the integer square root (the float
square root is exactly rounded, so flooring it agrees with `Nat.sqrt`
away from representation extremes). -/
def circleRadius (w h : ℤ) : ℤ :=
  (max 1 (Nat.sqrt (w * w + h * h).toNat / 2) : ℕ)

/-- `max(2, thickness + 2)`: the padding every draw call adds around its
geometry when widening the dirty box. -/
def pad (t : ℕ) : ℤ := max 2 ((t : ℤ) + 2)

/-- One drawing-layer operation of `CanvasEngine`. -/
inductive CanvasOp where
  | drawLine (p1 : Option Pix) (p2 : Pix) (t : ℕ) (eraser : Bool)
  | drawDot (pt : Pix) (t : ℕ)
  | drawShape (shape : String) (p1 p2 : Pix) (t : ℕ) (filled : Bool)
  | blitImage (x y iw ih : ℤ)
  | pushUndo
  | undo
  | redo
  | clear

/-- One operation applied to the ink-extent state, mirroring
`canvas_engine.py` operation for operation: every draw unions its
footprint into `ink` (an eraser stroke leaves the over-approximated
`ink` unchanged and only marks the box stale) and widens the box through
`_mark_bbox` exactly as the source does; `undo`/`redo` swap snapshots
and mark the box stale; `clear` pushes a snapshot and blanks the
raster. Python `//` is `Int.fdiv`. -/
def applyOp (e : CanvasEngine) : CanvasOp → CanvasEngine
  | .drawLine p1 p2 t eraser =>
    let start := p1.getD p2
    let fp := if eraser then (∅ : Finset Pix) else lineFoot start p2 t
    markBbox { e with ink := e.ink ∪ fp }
      (min start.1 p2.1 - pad t) (min start.2 p2.2 - pad t)
      (max start.1 p2.1 + pad t) (max start.2 p2.2 + pad t) eraser
  | .drawDot pt t =>
    markBbox { e with ink := e.ink ∪ dotFoot pt t }
      (pt.1 - (((max 1 (t / 2) : ℕ) : ℤ) + 2)) (pt.2 - (((max 1 (t / 2) : ℕ) : ℤ) + 2))
      (pt.1 + (((max 1 (t / 2) : ℕ) : ℤ) + 2)) (pt.2 + (((max 1 (t / 2) : ℕ) : ℤ) + 2))
      false
  | .drawShape shape p1 p2 t filled =>
    let x1 := min p1.1 p2.1
    let y1 := min p1.2 p2.2
    let x2 := max p1.1 p2.1
    let y2 := max p1.2 p2.2
    let cx := Int.fdiv (x1 + x2) 2
    let cy := Int.fdiv (y1 + y2) 2
    let fp :=
      if shape = "rectangle" then boxFoot x1 y1 x2 y2 t
      else if shape = "circle" then
        circleFoot cx cy (circleRadius (x2 - x1) (y2 - y1)) t
      else if shape = "ellipse" then boxFoot x1 y1 x2 y2 t
      else if shape = "line" then lineFoot p1 p2 t
      else if shape = "triangle" then boxFoot x1 y1 x2 y2 t
      else if shape = "heart" then heartFoot cx cy (Int.fdiv (max (x2 - x1) (y2 - y1)) 2) t
      else (∅ : Finset Pix)
    if shape = "line" then
      markBbox { e with ink := e.ink ∪ fp }
        (min p1.1 p2.1 - pad t) (min p1.2 p2.2 - pad t)
        (max p1.1 p2.1 + pad t) (max p1.2 p2.2 + pad t) false
    else
      markBbox { e with ink := e.ink ∪ fp }
        (x1 - pad t) (y1 - pad t) (x2 + pad t) (y2 + pad t) false
  | .blitImage x y iw ih =>
    let x2 := min (x + iw) DISPLAY_WIDTH
    let y2 := min (y + ih) DISPLAY_HEIGHT
    if x2 - x ≤ 0 ∨ y2 - y ≤ 0 then e
    else
      markBbox { e with ink := e.ink ∪ clipBox x (x2 - 1) y (y2 - 1) } x y x2 y2 false
  | .pushUndo =>
    let u := if MAX_UNDO_STEPS ≤ e.undoStack.length then e.undoStack.dropLast
             else e.undoStack
    { e with undoStack := e.ink :: u, redoStack := [] }
  | .undo =>
    match e.undoStack with
    | [] => e
    | top :: rest =>
      { e with ink := top, undoStack := rest, redoStack := e.ink :: e.redoStack,
               bboxStale := true }
  | .redo =>
    match e.redoStack with
    | [] => e
    | top :: rest =>
      { e with ink := top, undoStack := e.ink :: e.undoStack, redoStack := rest,
               bboxStale := true }
  | .clear =>
    let u := if MAX_UNDO_STEPS ≤ e.undoStack.length then e.undoStack.dropLast
             else e.undoStack
    { e with ink := ∅, undoStack := e.ink :: u, redoStack := [],
             bbox := none, bboxStale := false }

/-- `CanvasEngine._recompute_bbox`: the exact bounding rect of the
non-zero-alpha pixels (`None` for a blank layer). -/
def recomputeBbox (ink : Finset Pix) : Option Rect :=
  if h : ink.Nonempty then
    some ⟨(ink.image Prod.fst).min' (h.image Prod.fst),
          (ink.image Prod.snd).min' (h.image Prod.snd),
          (ink.image Prod.fst).max' (h.image Prod.fst) + 1,
          (ink.image Prod.snd).max' (h.image Prod.snd) + 1⟩
  else none

/-- The box `blend` composites through when the camera frame matches the
canvas dimensions: the cached `_bbox`, or the freshly recomputed box
when `_bbox_stale`. -/
def blendBox (e : CanvasEngine) : Option Rect :=
  if e.bboxStale then recomputeBbox e.ink else e.bbox

theorem markBbox_ink (e : CanvasEngine) (x1 y1 x2 y2 : ℤ) (st : Bool) :
    (markBbox e x1 y1 x2 y2 st).ink = e.ink := by
  unfold markBbox
  dsimp only
  split_ifs <;> try rfl
  rcases hb : e.bbox with _ | r <;> simp only [hb] <;> try rfl

/-- The circle scenario: a fresh canvas, then
`draw_shape("circle", (300, 100), (400, 200), color, thickness=4)`. -/
def circleScene : CanvasEngine :=
  applyOp CanvasEngine.mk0 (.drawShape "circle" (300, 100) (400, 200) 4 false)

theorem sqrt20000 : Nat.sqrt 20000 = 141 :=
  Nat.le_antisymm (Nat.lt_succ_iff.mp (Nat.sqrt_lt.mpr (by norm_num)))
    (Nat.le_sqrt.mpr (by norm_num))

theorem circleRadius_val : circleRadius 100 100 = 70 := by
  unfold circleRadius
  rw [show ((100 : ℤ) * 100 + 100 * 100).toNat = 20000 from rfl, sqrt20000]
  decide

/-- C2 — the code violates dirty-box soundness at the circle scenario:
drawing this circle leaves the cached box (which `blend`, the cache not
being stale, composites through) at the padded drag rectangle
`(294, 94)–(406, 206)`, while the circle's radius is half the drag
diagonal (70 px), so its rightmost stroke pixel `(420, 150)` carries ink
yet lies outside the box: compositing omits visibly non-transparent
ink. -/
theorem c2_dirty_box_misses_circle_ink :
    ((420 : ℤ), (150 : ℤ)) ∈ circleScene.ink ∧
    blendBox circleScene = some ⟨294, 94, 406, 206⟩ ∧
    ¬ Rect.holds ⟨294, 94, 406, 206⟩ (420, 150) := by
  have hscene : circleScene
      = markBbox { CanvasEngine.mk0 with
                    ink := CanvasEngine.mk0.ink ∪ circleFoot 350 150 70 4 }
          294 94 406 206 false := by
    unfold circleScene applyOp
    dsimp only
    rw [if_neg (show ¬(("circle" : String) = "rectangle") by decide)]
    rw [if_pos (show ("circle" : String) = "circle" from rfl)]
    rw [if_neg (show ¬(("circle" : String) = "line") by decide)]
    rw [show ((300 : ℤ) ⊓ 400) = 300 from rfl, show ((300 : ℤ) ⊔ 400) = 400 from rfl,
        show ((100 : ℤ) ⊓ 200) = 100 from rfl, show ((100 : ℤ) ⊔ 200) = 200 from rfl]
    rw [show Int.fdiv (300 + 400) 2 = 350 from rfl,
        show Int.fdiv (100 + 200) 2 = 150 from rfl]
    rw [show (400 : ℤ) - 300 = 100 from rfl, show (200 : ℤ) - 100 = 100 from rfl]
    rw [circleRadius_val]
    rw [show pad 4 = 6 from rfl]
    norm_num
  have hmark : circleScene
      = { CanvasEngine.mk0 with
            ink := CanvasEngine.mk0.ink ∪ circleFoot 350 150 70 4,
            bbox := some ⟨294, 94, 406, 206⟩, bboxStale := false } := by
    rw [hscene]
    unfold markBbox
    dsimp only
    rw [if_neg (show ¬((false : Bool) = true) by decide)]
    rw [if_neg (show ¬(((0 : ℤ) ⊔ DISPLAY_WIDTH ⊓ 406 ≤ 0 ⊔ DISPLAY_WIDTH ⊓ 294)
          ∨ ((0 : ℤ) ⊔ DISPLAY_HEIGHT ⊓ 206 ≤ 0 ⊔ DISPLAY_HEIGHT ⊓ 94)) by decide)]
    simp only [CanvasEngine.mk0]
    norm_num [DISPLAY_WIDTH, DISPLAY_HEIGHT]
  refine ⟨?_, ?_, by decide⟩
  · rw [hmark]
    simp only [CanvasEngine.mk0, Finset.empty_union, circleFoot, clipBox, canvasPix,
      Finset.mem_filter, Finset.mem_inter, Finset.mem_product, Finset.mem_Icc,
      DISPLAY_WIDTH, DISPLAY_HEIGHT]
    norm_num
  · rw [hmark]
    rfl

end Ink

end AirCanvas
